import Mathlib

/-!
The amqpgrus package: a Logrus hook publishing log entries to an AMQP queue.

Shallow embedding of `amqpgrus.go`.

* Go slices are modelled by `Slice`, which keeps the nil slice apart from a
  non-nil slice of length zero.
* A Go `error` is modelled by `Option String`: `none` is the nil error and
  `some m` an error whose `Error()` text is `m`.
* The AMQP client library is an abstract collaborator, `Broker`, giving the
  outcome of each call `Fire` can make; the calls `Fire` makes are recorded
  in order as a list of `Call`.
-/

/-- Go slice: `nil` is the nil slice, `mk l` a non-nil slice holding `l`. -/
inductive Slice (α : Type) where
  | nil : Slice α
  | mk : List α → Slice α
deriving DecidableEq

/-- Elements of a slice, in order. -/
def Slice.elems {α : Type} : Slice α → List α
  | Slice.nil => []
  | Slice.mk l => l

/-- Go builtin `len` on a slice. -/
def Slice.len {α : Type} (s : Slice α) : Nat :=
  s.elems.length

namespace logrus

/-- Logrus `Level` (`type Level uint32`). -/
abbrev Level := Nat

/-- Logrus level constants, declared with `iota` from the most severe on. -/
def PanicLevel : Level := 0

/-- Logrus `FatalLevel`. -/
def FatalLevel : Level := 1

/-- Logrus `ErrorLevel`. -/
def ErrorLevel : Level := 2

/-- Logrus `WarnLevel`. -/
def WarnLevel : Level := 3

/-- Logrus `InfoLevel`. -/
def InfoLevel : Level := 4

/-- Logrus `DebugLevel`. -/
def DebugLevel : Level := 5

/-- Logrus log entry, seen through the one method `Fire` uses: `text` is the
outcome of `entry.String()`, the rendered text or the formatter's error. -/
structure Entry where
  text : Except String String

end logrus

namespace amqp

/-- Client library `amqp.Table` (`map[string]interface{}`); `none` is the nil map. -/
abbrev Table := Option (List (String × String))

/-- Client library `amqp.Publishing`, the message envelope. `MsgType` is the
field `Type` and `Timestamp` a `time.Time`, with 0 for the zero time. -/
structure Publishing where
  Headers : Table
  ContentType : String
  ContentEncoding : String
  DeliveryMode : Nat
  Priority : Nat
  CorrelationId : String
  ReplyTo : String
  Expiration : String
  MessageId : String
  Timestamp : Int
  MsgType : String
  UserId : String
  AppId : String
  Body : Slice UInt8
deriving DecidableEq

/-- Zero value of `amqp.Publishing`. -/
def Publishing.zero : Publishing :=
  { Headers := none, ContentType := "", ContentEncoding := "", DeliveryMode := 0,
    Priority := 0, CorrelationId := "", ReplyTo := "", Expiration := "",
    MessageId := "", Timestamp := 0, MsgType := "", UserId := "", AppId := "",
    Body := Slice.nil }

end amqp

/-- Settings used during the queue declaration. -/
structure QueueDeclaration where
  Name : String
  Durable : Bool
  AutoDelete : Bool
  Exclusive : Bool
  NoWait : Bool
  Args : amqp.Table
deriving DecidableEq

/-- Settings used during the publishing. -/
structure Publishing where
  Exchange : String
  Key : String
  Mandatory : Bool
  Immediate : Bool
  Msg : amqp.Publishing
deriving DecidableEq

/-- The Logrus hook. -/
structure Hook where
  AMQPURL : String
  LoggingLevels : Slice logrus.Level
  QueueDeclaration : QueueDeclaration
  Publishing : Publishing
deriving DecidableEq

/-- Zero value of `QueueDeclaration`. -/
def QueueDeclaration.zero : QueueDeclaration :=
  { Name := "", Durable := false, AutoDelete := false, Exclusive := false,
    NoWait := false, Args := none }

/-- Zero value of `Publishing`. -/
def Publishing.zero : Publishing :=
  { Exchange := "", Key := "", Mandatory := false, Immediate := false,
    Msg := amqp.Publishing.zero }

/-- Zero value of `Hook`. -/
def Hook.zero : Hook :=
  { AMQPURL := "", LoggingLevels := Slice.nil,
    QueueDeclaration := QueueDeclaration.zero, Publishing := Publishing.zero }

/-- `Hook.Levels`: the configured levels when there are any, else the six
standard levels. -/
def Hook.Levels (h : Hook) : Slice logrus.Level :=
  if h.LoggingLevels.len ≠ 0 then
    h.LoggingLevels
  else
    Slice.mk [logrus.PanicLevel, logrus.FatalLevel, logrus.ErrorLevel,
      logrus.WarnLevel, logrus.InfoLevel, logrus.DebugLevel]

/-- `NewHook`: a zero hook with the URL set, then the queue name stored as
declaration name and as routing key. -/
def NewHook (amqpURL queueName : String) : Hook :=
  let h : Hook := { Hook.zero with AMQPURL := amqpURL }
  let h : Hook := { h with QueueDeclaration := { h.QueueDeclaration with Name := queueName } }
  let h : Hook := { h with Publishing := { h.Publishing with Key := queueName } }
  h

/-- Outcomes of the client library calls: each gives the error returned,
`none` when the call succeeds. -/
structure Broker where
  Dial : String → Option String
  Channel : Option String
  QueueDeclare : String → Bool → Bool → Bool → Bool → amqp.Table → Option String
  Publish : String → String → Bool → Bool → amqp.Publishing → Option String

/-- One call made on the client library. -/
inductive Call where
  | Dial (url : String)
  | Channel
  | QueueDeclare (name : String) (durable autoDelete exclusive noWait : Bool)
      (args : amqp.Table)
  | Publish (exchange key : String) (mandatory immediate : Bool)
      (msg : amqp.Publishing)
  | ConnClose
  | ChClose
deriving DecidableEq

/-- Is the call `conn.Channel()`. -/
def Call.isChannel : Call → Bool
  | Call.Channel => true
  | _ => false

/-- Is the call `ch.QueueDeclare(...)`. -/
def Call.isQueueDeclare : Call → Bool
  | Call.QueueDeclare _ _ _ _ _ _ => true
  | _ => false

/-- Is the call `ch.Publish(...)`. -/
def Call.isPublish : Call → Bool
  | Call.Publish _ _ _ _ _ => true
  | _ => false

/-- Bytes of a Go string, `[]byte(s)`. -/
def bytes (s : String) : List UInt8 :=
  s.toUTF8.data.toList

/-- What one run of `Fire` leaves behind: the error returned, the hook after
the run and the calls made, in order. -/
structure FireResult where
  err : Option String
  hook : Hook
  trace : List Call

/-- The content type default of `Fire`: an empty `ContentType` of the
message becomes "text/plain", the hook is mutated in place. -/
def Hook.defaultContentType (h : Hook) : Hook :=
  if h.Publishing.Msg.ContentType = "" then
    { h with Publishing := { h.Publishing with
        Msg := { h.Publishing.Msg with ContentType := "text/plain" } } }
  else
    h

/-- The assignment `h.Publishing.Msg.Body = []byte(body)` of `Fire`. -/
def Hook.setBody (h : Hook) (body : String) : Hook :=
  { h with Publishing := { h.Publishing with
      Msg := { h.Publishing.Msg with Body := Slice.mk (bytes body) } } }

/-- The `ch.QueueDeclare` call `Fire` makes for hook `h`. -/
def Hook.declareCall (h : Hook) : Call :=
  Call.QueueDeclare h.QueueDeclaration.Name h.QueueDeclaration.Durable
    h.QueueDeclaration.AutoDelete h.QueueDeclaration.Exclusive h.QueueDeclaration.NoWait
    h.QueueDeclaration.Args

/-- The `ch.Publish` call `Fire` makes for hook `h`. -/
def Hook.publishCall (h : Hook) : Call :=
  Call.Publish h.Publishing.Exchange h.Publishing.Key h.Publishing.Mandatory
    h.Publishing.Immediate h.Publishing.Msg

/-- `Hook.Fire`. The deferred calls are kept as a stack (`d1`, `d2`, `d3`,
last deferred first) and run after the calls already made on each return. -/
def Hook.Fire (h : Hook) (b : Broker) (entry : logrus.Entry) : FireResult :=
  let t1 := [Call.Dial h.AMQPURL]
  match b.Dial h.AMQPURL with
  | some err =>
    { err := some ("failed to create a new connection to " ++ h.AMQPURL ++ ": " ++ err),
      hook := h, trace := t1 }
  | none =>
    -- defer conn.Close()
    let d1 := [Call.ConnClose]
    let t2 := t1 ++ [Call.Channel]
    match b.Channel with
    | some err =>
      { err := some ("failed to open a new server channel: " ++ err),
        hook := h, trace := t2 ++ d1 }
    | none =>
      -- defer ch.Close()
      let d2 := Call.ChClose :: d1
      let t3 := t2 ++ [h.declareCall]
      match b.QueueDeclare h.QueueDeclaration.Name h.QueueDeclaration.Durable
        h.QueueDeclaration.AutoDelete h.QueueDeclaration.Exclusive h.QueueDeclaration.NoWait
        h.QueueDeclaration.Args with
      | some err =>
        { err := some ("failed to declare the " ++ h.QueueDeclaration.Name ++ " queue: " ++ err),
          hook := h, trace := t3 ++ d2 }
      | none =>
        -- defer ch.Close(), a second time
        let d3 := Call.ChClose :: d2
        let h1 := h.defaultContentType
        match entry.text with
        | Except.error err =>
          { err := some err, hook := h1, trace := t3 ++ d3 }
        | Except.ok body =>
          let h2 := h1.setBody body
          let t4 := t3 ++ [h2.publishCall]
          match b.Publish h2.Publishing.Exchange h2.Publishing.Key
            h2.Publishing.Mandatory h2.Publishing.Immediate h2.Publishing.Msg with
          | some err =>
            { err := some ("failed to publish the entry " ++ body ++ ": " ++ err),
              hook := h2, trace := t4 ++ d3 }
          | none =>
            { err := none, hook := h2, trace := t4 ++ d3 }

/-- Successive runs of `Fire` on one hook, each run starting from the hook
the run before left; the results are listed in order. -/
def fireSeq (h : Hook) : List (Broker × logrus.Entry) → List FireResult
  | [] => []
  | step :: rest =>
    let r := h.Fire step.1 step.2
    r :: fireSeq r.hook rest

/-- The text `sub` occurs in `s`. -/
def containsSubstr (s sub : String) : Prop :=
  ∃ pre post : String, s = pre ++ sub ++ post

/-- A broker on which every call succeeds. -/
def okBroker : Broker :=
  { Dial := fun _ => none, Channel := none,
    QueueDeclare := fun _ _ _ _ _ _ => none,
    Publish := fun _ _ _ _ _ => none }

/-- A broker on which dialing fails with the given error text. -/
def dialFailBroker (e : String) : Broker :=
  { okBroker with Dial := fun _ => some e }

/-- A broker on which opening the channel fails. -/
def channelFailBroker (e : String) : Broker :=
  { okBroker with Channel := some e }

/-- A broker on which the queue declaration fails. -/
def declareFailBroker (e : String) : Broker :=
  { okBroker with QueueDeclare := fun _ _ _ _ _ _ => some e }

/-- A broker on which publishing fails. -/
def publishFailBroker (e : String) : Broker :=
  { okBroker with Publish := fun _ _ _ _ _ => some e }

/-- A hook from `NewHook` with the content type set to "application/json". -/
def jsonHook : Hook :=
  { NewHook "amqp://x" "logs" with
    Publishing := { (NewHook "amqp://x" "logs").Publishing with
      Msg := { amqp.Publishing.zero with ContentType := "application/json" } } }

/-! ## Path equations of `Fire` -/

theorem Fire_dial_fail (h : Hook) (b : Broker) (entry : logrus.Entry) (e : String)
    (hd : b.Dial h.AMQPURL = some e) :
    h.Fire b entry =
      { err := some ("failed to create a new connection to " ++ h.AMQPURL ++ ": " ++ e),
        hook := h, trace := [Call.Dial h.AMQPURL] } := by
  simp [Hook.Fire, hd]

theorem Fire_channel_fail (h : Hook) (b : Broker) (entry : logrus.Entry) (e : String)
    (hd : b.Dial h.AMQPURL = none) (hc : b.Channel = some e) :
    h.Fire b entry =
      { err := some ("failed to open a new server channel: " ++ e),
        hook := h, trace := [Call.Dial h.AMQPURL, Call.Channel, Call.ConnClose] } := by
  simp [Hook.Fire, hd, hc]

theorem Fire_declare_fail (h : Hook) (b : Broker) (entry : logrus.Entry) (e : String)
    (hd : b.Dial h.AMQPURL = none) (hc : b.Channel = none)
    (hq : b.QueueDeclare h.QueueDeclaration.Name h.QueueDeclaration.Durable
      h.QueueDeclaration.AutoDelete h.QueueDeclaration.Exclusive h.QueueDeclaration.NoWait
      h.QueueDeclaration.Args = some e) :
    h.Fire b entry =
      { err := some ("failed to declare the " ++ h.QueueDeclaration.Name ++ " queue: " ++ e),
        hook := h,
        trace := [Call.Dial h.AMQPURL, Call.Channel, h.declareCall, Call.ChClose,
          Call.ConnClose] } := by
  simp [Hook.Fire, hd, hc, hq]

theorem Fire_render_fail (h : Hook) (b : Broker) (entry : logrus.Entry) (e : String)
    (hd : b.Dial h.AMQPURL = none) (hc : b.Channel = none)
    (hq : b.QueueDeclare h.QueueDeclaration.Name h.QueueDeclaration.Durable
      h.QueueDeclaration.AutoDelete h.QueueDeclaration.Exclusive h.QueueDeclaration.NoWait
      h.QueueDeclaration.Args = none)
    (hr : entry.text = Except.error e) :
    h.Fire b entry =
      { err := some e, hook := h.defaultContentType,
        trace := [Call.Dial h.AMQPURL, Call.Channel, h.declareCall, Call.ChClose,
          Call.ChClose, Call.ConnClose] } := by
  simp [Hook.Fire, hd, hc, hq, hr]

theorem Fire_rendered (h : Hook) (b : Broker) (entry : logrus.Entry) (t : String)
    (hd : b.Dial h.AMQPURL = none) (hc : b.Channel = none)
    (hq : b.QueueDeclare h.QueueDeclaration.Name h.QueueDeclaration.Durable
      h.QueueDeclaration.AutoDelete h.QueueDeclaration.Exclusive h.QueueDeclaration.NoWait
      h.QueueDeclaration.Args = none)
    (hr : entry.text = Except.ok t) :
    h.Fire b entry =
      { err := (b.Publish h.Publishing.Exchange h.Publishing.Key h.Publishing.Mandatory
            h.Publishing.Immediate (h.defaultContentType.setBody t).Publishing.Msg).map
          (fun e => "failed to publish the entry " ++ t ++ ": " ++ e),
        hook := h.defaultContentType.setBody t,
        trace := [Call.Dial h.AMQPURL, Call.Channel, h.declareCall,
          (h.defaultContentType.setBody t).publishCall, Call.ChClose, Call.ChClose,
          Call.ConnClose] } := by
  have h1 : (h.defaultContentType.setBody t).Publishing.Exchange = h.Publishing.Exchange := by
    unfold Hook.defaultContentType Hook.setBody; split <;> rfl
  have h2 : (h.defaultContentType.setBody t).Publishing.Key = h.Publishing.Key := by
    unfold Hook.defaultContentType Hook.setBody; split <;> rfl
  have h3 : (h.defaultContentType.setBody t).Publishing.Mandatory = h.Publishing.Mandatory := by
    unfold Hook.defaultContentType Hook.setBody; split <;> rfl
  have h4 : (h.defaultContentType.setBody t).Publishing.Immediate = h.Publishing.Immediate := by
    unfold Hook.defaultContentType Hook.setBody; split <;> rfl
  simp only [Hook.Fire, hd, hc, hq, hr, h1, h2, h3, h4]
  cases hp : b.Publish h.Publishing.Exchange h.Publishing.Key h.Publishing.Mandatory
      h.Publishing.Immediate (h.defaultContentType.setBody t).Publishing.Msg <;> simp

/-! ## Frame lemmas for the two mutations of `Fire` -/

theorem defaultContentType_of_ne (h : Hook) (hne : h.Publishing.Msg.ContentType ≠ "") :
    h.defaultContentType = h := by
  simp [Hook.defaultContentType, hne]

theorem defaultContentType_of_eq (h : Hook) (he : h.Publishing.Msg.ContentType = "") :
    h.defaultContentType.Publishing.Msg.ContentType = "text/plain" := by
  simp [Hook.defaultContentType, he]

theorem defaultContentType_frame (h : Hook) :
    h.defaultContentType =
      { h with Publishing := { h.Publishing with
          Msg := { h.Publishing.Msg with
            ContentType := h.defaultContentType.Publishing.Msg.ContentType } } } := by
  unfold Hook.defaultContentType
  split <;> rfl

theorem defaultContentType_body (h : Hook) :
    h.defaultContentType.Publishing.Msg.Body = h.Publishing.Msg.Body := by
  unfold Hook.defaultContentType
  split <;> rfl

theorem setBody_frame (h : Hook) (t : String) :
    h.defaultContentType.setBody t =
      { h with Publishing := { h.Publishing with
          Msg := { h.Publishing.Msg with
            ContentType := h.defaultContentType.Publishing.Msg.ContentType,
            Body := Slice.mk (bytes t) } } } := by
  unfold Hook.setBody Hook.defaultContentType
  split <;> rfl

/-- One run of `Fire` on a hook whose content type is the non-empty `c`
keeps `c` in the hook and on every publish call. -/
theorem Fire_contentType_kept (h : Hook) (b : Broker) (entry : logrus.Entry) (c : String)
    (hc : h.Publishing.Msg.ContentType = c) (hne : c ≠ "") :
    (h.Fire b entry).hook.Publishing.Msg.ContentType = c ∧
      ∀ ex k m i msg, Call.Publish ex k m i msg ∈ (h.Fire b entry).trace →
        msg.ContentType = c := by
  have hne2 : h.Publishing.Msg.ContentType ≠ "" := by rw [hc]; exact hne
  have hdef : h.defaultContentType = h := defaultContentType_of_ne h hne2
  cases hd : b.Dial h.AMQPURL with
  | some e => rw [Fire_dial_fail h b entry e hd]; simp [hc]
  | none =>
    cases hch : b.Channel with
    | some e => rw [Fire_channel_fail h b entry e hd hch]; simp [hc]
    | none =>
      cases hq : b.QueueDeclare h.QueueDeclaration.Name h.QueueDeclaration.Durable
        h.QueueDeclaration.AutoDelete h.QueueDeclaration.Exclusive
        h.QueueDeclaration.NoWait h.QueueDeclaration.Args with
      | some e =>
        rw [Fire_declare_fail h b entry e hd hch hq]
        simp [hc, Hook.declareCall]
      | none =>
        cases hr : entry.text with
        | error e =>
          rw [Fire_render_fail h b entry e hd hch hq hr, hdef]
          simp [hc, Hook.declareCall]
        | ok t =>
          rw [Fire_rendered h b entry t hd hch hq hr, hdef]
          refine ⟨by simp [Hook.setBody, hc], ?_⟩
          intro ex k m i msg hmem
          simp [Hook.declareCall, Hook.publishCall] at hmem
          rw [hmem.2.2.2.2]
          simp [Hook.setBody, hc]

/-! ## Levels -/

/-- C1: when `LoggingLevels` is non-empty, `Levels` returns that very slice:
same length, same elements, same order. -/
theorem C1_levels_configured (h : Hook) (hne : h.LoggingLevels.len ≠ 0) :
    h.Levels = h.LoggingLevels ∧ h.Levels.len = h.LoggingLevels.len ∧
      h.Levels.elems = h.LoggingLevels.elems := by
  have e : h.Levels = h.LoggingLevels := by simp [Hook.Levels, hne]
  exact ⟨e, by rw [e], by rw [e]⟩

theorem C1_levels_configured_witness :
    ({ Hook.zero with LoggingLevels := Slice.mk [logrus.InfoLevel, logrus.PanicLevel,
        logrus.InfoLevel] } : Hook).LoggingLevels.len ≠ 0 ∧
      ({ Hook.zero with LoggingLevels := Slice.mk [logrus.InfoLevel, logrus.PanicLevel,
        logrus.InfoLevel] } : Hook).Levels.elems =
        [logrus.InfoLevel, logrus.PanicLevel, logrus.InfoLevel] :=
  ⟨by decide, (C1_levels_configured _ (by decide)).2.2⟩

/-- C2: when `LoggingLevels` has length zero (the nil slice or an empty one),
`Levels` returns the six levels Panic, Fatal, Error, Warn, Info, Debug in that
order; no level is repeated and each is less severe (a larger code) than the
ones before it. -/
theorem C2_levels_default (h : Hook) (he : h.LoggingLevels.len = 0) :
    h.Levels = Slice.mk [logrus.PanicLevel, logrus.FatalLevel, logrus.ErrorLevel,
        logrus.WarnLevel, logrus.InfoLevel, logrus.DebugLevel] ∧
      h.Levels.len = 6 ∧ h.Levels.elems.Nodup ∧
      h.Levels.elems.Pairwise (fun a b => a < b) := by
  have e : h.Levels = Slice.mk [logrus.PanicLevel, logrus.FatalLevel, logrus.ErrorLevel,
      logrus.WarnLevel, logrus.InfoLevel, logrus.DebugLevel] := by
    simp [Hook.Levels, he]
  rw [e]
  exact ⟨rfl, by decide, by decide, by decide⟩

theorem C2_levels_default_witness :
    (Hook.zero.LoggingLevels.len = 0 ∧ Hook.zero.Levels.len = 6) ∧
      (({ Hook.zero with LoggingLevels := Slice.mk [] } : Hook).LoggingLevels.len = 0 ∧
        ({ Hook.zero with LoggingLevels := Slice.mk [] } : Hook).Levels.len = 6) :=
  ⟨⟨by decide, (C2_levels_default Hook.zero (by decide)).2.1⟩,
    ⟨by decide, (C2_levels_default _ (by decide)).2.1⟩⟩

/-! ## NewHook -/

/-- C3: `NewHook u q` has `AMQPURL = u`, `QueueDeclaration.Name = q` and
`Publishing.Key = q`; every other field, the whole message included, is at
its zero value. -/
theorem C3_newHook (u q : String) :
    (NewHook u q).AMQPURL = u ∧
      (NewHook u q).QueueDeclaration.Name = q ∧
      (NewHook u q).Publishing.Key = q ∧
      (NewHook u q).QueueDeclaration.Durable = false ∧
      (NewHook u q).QueueDeclaration.AutoDelete = false ∧
      (NewHook u q).QueueDeclaration.Exclusive = false ∧
      (NewHook u q).QueueDeclaration.NoWait = false ∧
      (NewHook u q).Publishing.Mandatory = false ∧
      (NewHook u q).Publishing.Immediate = false ∧
      (NewHook u q).Publishing.Exchange = "" ∧
      (NewHook u q).QueueDeclaration.Args = none ∧
      (NewHook u q).LoggingLevels = Slice.nil ∧
      (NewHook u q).Publishing.Msg.ContentType = "" ∧
      (NewHook u q).Publishing.Msg.Body = Slice.nil ∧
      (NewHook u q).Publishing.Msg = amqp.Publishing.zero :=
  ⟨rfl, rfl, rfl, rfl, rfl, rfl, rfl, rfl, rfl, rfl, rfl, rfl, rfl, rfl, rfl⟩


/-! ## Fire -/

/-- C4: when dial, open-channel and declare-queue succeed, the entry renders
to `t` and the publish call made succeeds, `Fire` returns no error and makes
exactly one publish call; it carries the configured Exchange, Key, Mandatory
and Immediate and a message whose Body is the bytes of `t` and whose
ContentType is "text/plain" when the configured one was empty (and the
configured one otherwise). -/
theorem C4_fire_success (h : Hook) (b : Broker) (entry : logrus.Entry) (t : String)
    (hd : b.Dial h.AMQPURL = none) (hc : b.Channel = none)
    (hq : b.QueueDeclare h.QueueDeclaration.Name h.QueueDeclaration.Durable
      h.QueueDeclaration.AutoDelete h.QueueDeclaration.Exclusive h.QueueDeclaration.NoWait
      h.QueueDeclaration.Args = none)
    (hr : entry.text = Except.ok t)
    (hp : ∀ ex k m i msg, Call.Publish ex k m i msg ∈ (h.Fire b entry).trace →
      b.Publish ex k m i msg = none) :
    (h.Fire b entry).err = none ∧
      ∃ msg : amqp.Publishing,
        (h.Fire b entry).trace.filter Call.isPublish =
          [Call.Publish h.Publishing.Exchange h.Publishing.Key h.Publishing.Mandatory
            h.Publishing.Immediate msg] ∧
        msg.Body = Slice.mk (bytes t) ∧
        (h.Publishing.Msg.ContentType = "" → msg.ContentType = "text/plain") ∧
        (h.Publishing.Msg.ContentType ≠ "" →
          msg.ContentType = h.Publishing.Msg.ContentType) := by
  rw [Fire_rendered h b entry t hd hc hq hr] at hp ⊢
  have hfr := setBody_frame h t
  have hpub := hp h.Publishing.Exchange h.Publishing.Key h.Publishing.Mandatory
    h.Publishing.Immediate (h.defaultContentType.setBody t).Publishing.Msg
    (by simp [Hook.publishCall, hfr])
  refine ⟨by simp [hpub], (h.defaultContentType.setBody t).Publishing.Msg, ?_, ?_, ?_, ?_⟩
  · simp [List.filter, Call.isPublish, Hook.declareCall, Hook.publishCall, hfr]
  · simp [hfr]
  · intro he
    simp [hfr, defaultContentType_of_eq h he]
  · intro hne
    rw [defaultContentType_of_ne h hne]
    rfl

theorem C4_fire_success_witness :
    (okBroker.Dial (NewHook "amqp://x" "logs").AMQPURL = none ∧ okBroker.Channel = none) ∧
      ((NewHook "amqp://x" "logs").Fire okBroker ⟨Except.ok "hello"⟩).err = none :=
  ⟨⟨rfl, rfl⟩,
    (C4_fire_success (NewHook "amqp://x" "logs") okBroker ⟨Except.ok "hello"⟩ "hello"
      rfl rfl rfl rfl (fun _ _ _ _ _ _ => rfl)).1⟩

/-- C5: when dialing the configured URL fails, `Fire` returns an error whose
text contains `AMQPURL`, and the dial is the only call made: no open-channel,
declare-queue or publish call. -/
theorem C5_fire_dial_failure (h : Hook) (b : Broker) (entry : logrus.Entry)
    (hd : b.Dial h.AMQPURL ≠ none) :
    (∃ msg, (h.Fire b entry).err = some msg ∧ containsSubstr msg h.AMQPURL) ∧
      (h.Fire b entry).trace = [Call.Dial h.AMQPURL] ∧
      ∀ c ∈ (h.Fire b entry).trace,
        c.isChannel = false ∧ c.isQueueDeclare = false ∧ c.isPublish = false := by
  cases hd2 : b.Dial h.AMQPURL with
  | none => exact absurd hd2 hd
  | some e =>
    rw [Fire_dial_fail h b entry e hd2]
    refine ⟨⟨_, rfl, "failed to create a new connection to ", ": " ++ e, ?_⟩, rfl, ?_⟩
    · simp [String.append_assoc]
    · simp [Call.isChannel, Call.isQueueDeclare, Call.isPublish]

theorem C5_fire_dial_failure_witness :
    (dialFailBroker "refused").Dial (NewHook "amqp://x" "logs").AMQPURL ≠ none ∧
      ((NewHook "amqp://x" "logs").Fire (dialFailBroker "refused") ⟨Except.ok "m"⟩).trace =
        [Call.Dial (NewHook "amqp://x" "logs").AMQPURL] :=
  ⟨by simp [dialFailBroker],
    (C5_fire_dial_failure (NewHook "amqp://x" "logs") (dialFailBroker "refused")
      ⟨Except.ok "m"⟩ (by simp [dialFailBroker])).2.1⟩

/-- C6: when dial and open-channel succeed and the queue declaration fails,
`Fire` returns an error whose text contains `QueueDeclaration.Name`, and it
makes no publish call. -/
theorem C6_fire_declare_failure (h : Hook) (b : Broker) (entry : logrus.Entry)
    (hd : b.Dial h.AMQPURL = none) (hc : b.Channel = none)
    (hq : b.QueueDeclare h.QueueDeclaration.Name h.QueueDeclaration.Durable
      h.QueueDeclaration.AutoDelete h.QueueDeclaration.Exclusive h.QueueDeclaration.NoWait
      h.QueueDeclaration.Args ≠ none) :
    (∃ msg, (h.Fire b entry).err = some msg ∧
        containsSubstr msg h.QueueDeclaration.Name) ∧
      ∀ c ∈ (h.Fire b entry).trace, c.isPublish = false := by
  cases hq2 : b.QueueDeclare h.QueueDeclaration.Name h.QueueDeclaration.Durable
      h.QueueDeclaration.AutoDelete h.QueueDeclaration.Exclusive h.QueueDeclaration.NoWait
      h.QueueDeclaration.Args with
  | none => exact absurd hq2 hq
  | some e =>
    rw [Fire_declare_fail h b entry e hd hc hq2]
    refine ⟨⟨_, rfl, "failed to declare the ", " queue: " ++ e, ?_⟩, ?_⟩
    · simp [String.append_assoc]
    · simp [Call.isPublish, Hook.declareCall]

theorem C6_fire_declare_failure_witness :
    (declareFailBroker "conflict").Channel = none ∧
      ∀ c ∈ ((NewHook "amqp://x" "logs").Fire (declareFailBroker "conflict")
        ⟨Except.ok "m"⟩).trace, c.isPublish = false :=
  ⟨rfl,
    (C6_fire_declare_failure (NewHook "amqp://x" "logs") (declareFailBroker "conflict")
      ⟨Except.ok "m"⟩ rfl rfl (by simp [declareFailBroker])).2⟩

/-- C7, evaluated on the code: with a hook from `NewHook`, a broker on which
every call succeeds and an entry that renders, `Fire` returns no error and
its trace holds one close of the connection but two closes of the channel. -/
theorem C7_fire_channel_closed_twice :
    ((NewHook "amqp://x" "logs").Fire okBroker ⟨Except.ok "m"⟩).err = none ∧
      ((NewHook "amqp://x" "logs").Fire okBroker ⟨Except.ok "m"⟩).trace.count
        Call.ConnClose = 1 ∧
      ((NewHook "amqp://x" "logs").Fire okBroker ⟨Except.ok "m"⟩).trace.count
        Call.ChClose = 2 := by
  decide

/-- C8: when the hook's content type is a non-empty `c` before a sequence of
runs of `Fire` on it, then after each run the hook's content type is still
`c` and every publish call of each run carries content type `c`. -/
theorem C8_content_type_persists (h : Hook) (c : String)
    (hc : h.Publishing.Msg.ContentType = c) (hne : c ≠ "")
    (steps : List (Broker × logrus.Entry)) :
    ∀ r ∈ fireSeq h steps,
      r.hook.Publishing.Msg.ContentType = c ∧
        ∀ ex k m i msg, Call.Publish ex k m i msg ∈ r.trace → msg.ContentType = c := by
  induction steps generalizing h with
  | nil => intro r hr; simp [fireSeq] at hr
  | cons step rest ih =>
    intro r hr
    have hk := Fire_contentType_kept h step.1 step.2 c hc hne
    simp only [fireSeq, List.mem_cons] at hr
    rcases hr with hr | hr
    · rw [hr]; exact hk
    · exact ih (h.Fire step.1 step.2).hook hk.1 r hr

theorem C8_content_type_persists_witness :
    (jsonHook.Publishing.Msg.ContentType = "application/json" ∧
      "application/json" ≠ "") ∧
      ∀ r ∈ fireSeq jsonHook [(okBroker, ⟨Except.ok "a"⟩),
          (publishFailBroker "nack", ⟨Except.ok "b"⟩), (okBroker, ⟨Except.error "bad"⟩),
          (okBroker, ⟨Except.ok "c"⟩)],
        r.hook.Publishing.Msg.ContentType = "application/json" ∧
          ∀ ex k m i msg, Call.Publish ex k m i msg ∈ r.trace →
            msg.ContentType = "application/json" :=
  ⟨⟨rfl, by decide⟩, C8_content_type_persists jsonHook "application/json" rfl (by decide) _⟩

/-- C9: when dial, open-channel and declare-queue succeed and rendering the
entry fails with `e`, `Fire` returns the error `e`, makes no publish call,
leaves the message Body unchanged, and has closed the channel and the
connection when it returns. -/
theorem C9_fire_render_failure (h : Hook) (b : Broker) (entry : logrus.Entry) (e : String)
    (hd : b.Dial h.AMQPURL = none) (hc : b.Channel = none)
    (hq : b.QueueDeclare h.QueueDeclaration.Name h.QueueDeclaration.Durable
      h.QueueDeclaration.AutoDelete h.QueueDeclaration.Exclusive h.QueueDeclaration.NoWait
      h.QueueDeclaration.Args = none)
    (hr : entry.text = Except.error e) :
    (h.Fire b entry).err = some e ∧
      (∀ c ∈ (h.Fire b entry).trace, c.isPublish = false) ∧
      (h.Fire b entry).hook.Publishing.Msg.Body = h.Publishing.Msg.Body ∧
      Call.ChClose ∈ (h.Fire b entry).trace ∧
      Call.ConnClose ∈ (h.Fire b entry).trace := by
  rw [Fire_render_fail h b entry e hd hc hq hr]
  refine ⟨rfl, ?_, defaultContentType_body h, ?_, ?_⟩
  · simp [Call.isPublish, Hook.declareCall]
  · simp
  · simp

theorem C9_fire_render_failure_witness :
    (⟨Except.error "cannot marshal"⟩ : logrus.Entry).text = Except.error "cannot marshal" ∧
      ((NewHook "amqp://x" "logs").Fire okBroker ⟨Except.error "cannot marshal"⟩).err =
        some "cannot marshal" :=
  ⟨rfl,
    (C9_fire_render_failure (NewHook "amqp://x" "logs") okBroker
      ⟨Except.error "cannot marshal"⟩ "cannot marshal" rfl rfl rfl rfl).1⟩

/-- C10: whatever the broker and the entry do, the hook after `Fire` differs
from the hook before at most in the message ContentType and Body (AMQPURL,
LoggingLevels, QueueDeclaration, Exchange, Key, Mandatory, Immediate and the
other message fields are the same); and when the dial, the channel opening
or the queue declaration fails, the hook after is the hook before. -/
theorem C10_fire_frame (h : Hook) (b : Broker) (entry : logrus.Entry) :
    ((h.Fire b entry).hook.AMQPURL = h.AMQPURL ∧
      (h.Fire b entry).hook.LoggingLevels = h.LoggingLevels ∧
      (h.Fire b entry).hook.QueueDeclaration = h.QueueDeclaration ∧
      (h.Fire b entry).hook.Publishing.Exchange = h.Publishing.Exchange ∧
      (h.Fire b entry).hook.Publishing.Key = h.Publishing.Key ∧
      (h.Fire b entry).hook.Publishing.Mandatory = h.Publishing.Mandatory ∧
      (h.Fire b entry).hook.Publishing.Immediate = h.Publishing.Immediate ∧
      (h.Fire b entry).hook.Publishing.Msg =
        { h.Publishing.Msg with
          ContentType := (h.Fire b entry).hook.Publishing.Msg.ContentType,
          Body := (h.Fire b entry).hook.Publishing.Msg.Body }) ∧
    ((b.Dial h.AMQPURL ≠ none ∨ b.Channel ≠ none ∨
        b.QueueDeclare h.QueueDeclaration.Name h.QueueDeclaration.Durable
          h.QueueDeclaration.AutoDelete h.QueueDeclaration.Exclusive
          h.QueueDeclaration.NoWait h.QueueDeclaration.Args ≠ none) →
      (h.Fire b entry).hook = h) := by
  cases hd : b.Dial h.AMQPURL with
  | some e => rw [Fire_dial_fail h b entry e hd]; simp
  | none =>
    cases hch : b.Channel with
    | some e => rw [Fire_channel_fail h b entry e hd hch]; simp
    | none =>
      cases hq : b.QueueDeclare h.QueueDeclaration.Name h.QueueDeclaration.Durable
        h.QueueDeclaration.AutoDelete h.QueueDeclaration.Exclusive
        h.QueueDeclaration.NoWait h.QueueDeclaration.Args with
      | some e => rw [Fire_declare_fail h b entry e hd hch hq]; simp
      | none =>
        cases hr : entry.text with
        | error e =>
          rw [Fire_render_fail h b entry e hd hch hq hr]
          have hf := defaultContentType_frame h
          refine ⟨⟨?_, ?_, ?_, ?_, ?_, ?_, ?_, ?_⟩, by simp⟩
          all_goals rw [hf]
        | ok t =>
          rw [Fire_rendered h b entry t hd hch hq hr]
          have hf := setBody_frame h t
          refine ⟨⟨?_, ?_, ?_, ?_, ?_, ?_, ?_, ?_⟩, by simp⟩
          all_goals rw [hf]

theorem C10_fire_frame_witness :
    (channelFailBroker "closed").Channel ≠ none ∧
      ((NewHook "amqp://x" "logs").Fire (channelFailBroker "closed") ⟨Except.ok "m"⟩).hook =
        NewHook "amqp://x" "logs" :=
  ⟨by simp [channelFailBroker],
    (C10_fire_frame (NewHook "amqp://x" "logs") (channelFailBroker "closed")
      ⟨Except.ok "m"⟩).2 (Or.inr (Or.inl (by simp [channelFailBroker])))⟩
